import Mathlib

/-!
Verification of the JobPilot semantic matching core.

This file gives a shallow embedding, in Lean 4, of the scoring and ranking
functions of the repository (src/src/semantic/embeddings.py,
src/src/semantic/search_engine.py, src/src/semantic/llm_analyzer.py) and
proves properties of them.

Modelling conventions:
- Python floats are modelled as exact rationals (`ℚ`); where `float('inf')`
  and NaN can arise (the salary scorer) a small explicit float value type
  `FVal` with `fin / inf / nan` constructors is used; the cosine-similarity
  computation, which involves square roots, is modelled over `ℝ`.
- Python `None` is modelled by `Option`.  Python truthiness tests on numbers
  (`if not x`) are modelled as "`none` or zero", and on lists/strings as
  "empty".
- Database rows and embedding-model calls are collaborators of the semantic
  core: a job table becomes a `List JobRec` argument and the embedding +
  similarity pipeline for a stored job becomes a function argument
  (`sim : JobRec → Option ℚ`, `none` modelling a per-job exception).
- `list.sort(key=..., reverse=True)` (a stable descending sort) is modelled
  by `List.mergeSort` with the comparison `b.key ≤ a.key`, which is the
  stable sort of the Lean standard library.
-/

namespace JobPilot

/-! ## Scoring functions from search_engine.py (class SemanticSearchEngine) -/

/-- Rounding to three decimal places, Python's `round(x, 3)`. -/
def round3 (q : ℚ) : ℚ := (round (q * 1000) : ℤ) / 1000

/-- Model of `_calculate_overall_score` from search_engine.py: the fixed weighted sum
of the five sub-scores, rounded to three decimals. -/
def calculate_overall_score (semantic skills experience salary location : ℚ) : ℚ :=
  round3 (semantic * 0.35 + skills * 0.25 + experience * 0.20 +
    salary * 0.15 + location * 0.05)

/-- Python's `str.lower()` (per-character lowercasing; defined on the
character list because the byte-position recursion of `String.map` does not
reduce in the kernel). -/
def lower (s : String) : String := String.mk (s.data.map Char.toLower)

/-- The `level_to_years` table of `_calculate_experience_match`: maps an
experience level to an inclusive (min_years, max_years) band. -/
def level_to_years (lvl : String) : Option (ℚ × ℚ) :=
  if lvl = "entry_level" then some (0, 2)
  else if lvl = "associate" then some (1, 3)
  else if lvl = "mid_level" then some (3, 7)
  else if lvl = "senior_level" then some (5, 12)
  else if lvl = "director" then some (8, 20)
  else if lvl = "executive" then some (10, 30)
  else none

/-- Model of `_calculate_experience_match` from search_engine.py.
`experience_years = none` models a profile without that key (or no profile);
the Python guard `not user_profile.get('experience_years')` is a truthiness
test, so the value `0` is also caught by it and scores the neutral 0.5. -/
def calculate_experience_match (experience_level : Option String)
    (experience_years : Option ℚ) : ℚ :=
  match experience_years with
  | none => 0.5
  | some user_years =>
    if user_years = 0 then 0.5
    else
      let job_level := lower (experience_level.getD "")
      match level_to_years job_level with
      | none => 0.5
      | some (min_years, max_years) =>
        if min_years ≤ user_years ∧ user_years ≤ max_years then 1.0
        else if user_years < min_years then
          max 0.0 (1.0 - (min_years - user_years) / 5)
        else
          max 0.6 (1.0 - (user_years - max_years) / 10)

/-- The set of job skills of `_calculate_skills_match`: the case-insensitive
union of required and preferred skills (a Python `set` of lower-cased
strings, here a deduplicated list). -/
def job_skills (skills_required skills_preferred : List String) : List String :=
  ((skills_required.map lower) ++ (skills_preferred.map lower)).dedup

/-- Model of `_calculate_skills_match` from search_engine.py.  `user_skills = []`
models a missing profile or a profile with no (or an empty) skills list. -/
def calculate_skills_match (skills_required skills_preferred user_skills : List String) : ℚ :=
  if user_skills = [] then 0.5
  else
    let us := (user_skills.map lower).dedup
    let js := job_skills skills_required skills_preferred
    if js = [] then 0.5
    else
      let overlap := (js.filter (fun s => us.contains s)).length
      min ((overlap : ℚ) / (js.length : ℚ)) 1

/-- Python's substring test `a in b` on strings. -/
def str_contains (b a : String) : Prop := a.toList <:+: b.toList

instance (b a : String) : Decidable (str_contains b a) :=
  inferInstanceAs (Decidable (a.toList <:+: b.toList))

/-- Model of `_calculate_location_match` from search_engine.py.
`preferred_locations = []` models a missing profile or no preferences. -/
def calculate_location_match (preferred_locations : List String)
    (location remote_type : Option String) : ℚ :=
  if preferred_locations = [] then 0.5
  else
    let user_locations := preferred_locations.map lower
    let job_location := lower (location.getD "")
    let job_remote := lower (remote_type.getD "")
    if user_locations.contains "remote" ∧ (job_remote = "remote" ∨ job_remote = "hybrid") then
      1.0
    else if user_locations.any (fun user_loc =>
        decide (str_contains job_location user_loc) ||
        decide (str_contains user_loc job_location)) then
      1.0
    else if job_remote = "hybrid" then 0.7
    else 0.2

/-! ## A small model of Python floats for `_calculate_salary_match`

The salary scorer manipulates `float('inf')` (an absent upper bound) and can
produce NaN (`inf / inf`).  `FVal` models exactly the values that occur
there: finite floats (as exact rationals), positive infinity, and NaN.
Negative infinity cannot arise in this computation (every subtrahend is
finite), so it is not represented. -/

inductive FVal where
  | fin : ℚ → FVal
  | inf : FVal
  | nan : FVal
deriving DecidableEq

namespace FVal

/-- Python `a < b` on floats (comparisons with NaN are false). -/
def flt : FVal → FVal → Bool
  | nan, _ => false
  | _, nan => false
  | fin a, fin b => decide (a < b)
  | fin _, inf => true
  | inf, _ => false

/-- Python `a <= b` on floats (comparisons with NaN are false). -/
def fle : FVal → FVal → Bool
  | nan, _ => false
  | _, nan => false
  | fin a, fin b => decide (a ≤ b)
  | fin _, inf => true
  | inf, inf => true
  | inf, fin _ => false

/-- Float addition, restricted to the values occurring here. -/
def add : FVal → FVal → FVal
  | nan, _ => nan
  | _, nan => nan
  | inf, _ => inf
  | _, inf => inf
  | fin a, fin b => fin (a + b)

/-- Float subtraction of a finite float. -/
def subQ : FVal → ℚ → FVal
  | nan, _ => nan
  | inf, _ => inf
  | fin a, q => fin (a - q)

/-- Float division, for the operands this scorer produces: both operands are
positive (so `inf / fin = inf`, `fin / inf = 0`) or `inf / inf = NaN`. -/
def div : FVal → FVal → FVal
  | nan, _ => nan
  | _, nan => nan
  | inf, inf => nan
  | inf, fin _ => inf
  | fin _, inf => fin 0
  | fin a, fin b => fin (a / b)

/-- Division by the float 2. -/
def halve : FVal → FVal
  | nan => nan
  | inf => inf
  | fin a => fin (a / 2)

/-- Python `min(a, b)`: returns `b` exactly when `b < a` (so a NaN first
argument is returned, since every comparison with NaN is false). -/
def pymin (a b : FVal) : FVal := if flt b a then b else a

end FVal

/-- Python truthiness of an optional number: `None` and `0` are falsy. -/
def truthy (x : Option ℚ) : Bool :=
  match x with
  | none => false
  | some v => decide (v ≠ 0)

/-- An upper salary bound: Python `x or float('inf')` (both a missing bound
and the falsy value `0` become `+inf`). -/
def salary_high (x : Option ℚ) : FVal :=
  match x with
  | none => FVal.inf
  | some v => if v = 0 then FVal.inf else FVal.fin v

/-- Model of `_calculate_salary_match` from search_engine.py, for a present profile
(a missing profile returns 0.5 before any of this runs).  The result is a
float value (`FVal.nan` when the Python computation yields NaN). -/
def calculate_salary_match (user_min user_max job_min job_max : Option ℚ) : FVal :=
  if ¬ (truthy user_min ∨ truthy user_max ∨ truthy job_min ∨ truthy job_max) then
    FVal.fin 0.5
  else if ¬ truthy job_min ∧ ¬ truthy job_max then
    FVal.fin 0.4
  else if ¬ truthy user_min ∧ ¬ truthy user_max then
    FVal.fin 0.5
  else
    let job_lo : ℚ := job_min.getD 0
    let user_lo : ℚ := user_min.getD 0
    let job_hi := salary_high job_max
    let user_hi := salary_high user_max
    let overlap_start : ℚ := max job_lo user_lo
    let overlap_end : FVal := FVal.pymin job_hi user_hi
    if FVal.fle (FVal.fin overlap_start) overlap_end then
      let overlap_size := overlap_end.subQ overlap_start
      let job_range_size := job_hi.subQ job_lo
      let user_range_size := user_hi.subQ user_lo
      if FVal.flt (FVal.fin 0) job_range_size ∧ FVal.flt (FVal.fin 0) user_range_size then
        let avg_range_size := (job_range_size.add user_range_size).halve
        FVal.pymin (overlap_size.div avg_range_size) (FVal.fin 1)
      else
        FVal.fin 1
    else
      match overlap_end with
      | FVal.fin oe =>
        let gap : ℚ := overlap_start - oe
        let vals := ([job_min, job_max, user_min, user_max].filterMap id).filter
          (fun v => decide (v ≠ 0))
        let avg_salary : ℚ := vals.sum / (vals.length : ℚ)
        if 0 < avg_salary then FVal.fin (max 0 (1 - gap / avg_salary)) else FVal.fin 0
      | _ => FVal.nan   -- unreachable: no overlap forces a finite overlap_end

/-! ## The search pipeline from search_engine.py

The database and the embedding model are collaborators of the search engine;
a job row becomes a `JobRec` and the pipeline "embed the job, take the cosine
similarity with the reference embedding" becomes a function argument
`sim : JobRec → Option ℚ` (`none` models an exception raised while scoring
that job, which the engine catches and turns into a skip). -/

structure JobRec where
  id : String
  title : String
  company : String
  location : Option String
deriving DecidableEq

/-- The `JobMatch` dataclass of search_engine.py (the fields the claims are
about; `raw_job_data` is omitted). -/
structure JobMatch where
  job_id : String
  job_title : String
  company : String
  location : String
  semantic_score : ℚ
  skills_match_score : ℚ
  experience_match_score : ℚ
  salary_match_score : ℚ
  location_match_score : ℚ
  overall_score : ℚ
  match_reasons : List String
deriving DecidableEq

/-- Stable descending sort by `overall_score`:
`job_matches.sort(key=lambda x: x.overall_score, reverse=True)`. -/
def sort_by_overall (l : List JobMatch) : List JobMatch :=
  l.mergeSort (fun a b => decide (b.overall_score ≤ a.overall_score))

/-- Stable descending sort by `semantic_score`:
`similar_jobs.sort(key=lambda x: x.semantic_score, reverse=True)`. -/
def sort_by_semantic (l : List JobMatch) : List JobMatch :=
  l.mergeSort (fun a b => decide (b.semantic_score ≤ a.semantic_score))

/-- The loop body of `find_similar_jobs`: skip the reference job, skip a job
whose scoring raised (`sim job = none`), keep a job whose similarity exceeds
0.3 as a `JobMatch` whose four profile sub-scores are zero and whose overall
score is the similarity. -/
def similar_candidate (ref : JobRec) (sim : JobRec → Option ℚ) (job_id : String)
    (job : JobRec) : Option JobMatch :=
  if job.id = job_id then none              -- skip the reference job
  else
    match sim job with
    | none => none                          -- exception while scoring: skipped
    | some similarity =>
      if 0.3 < similarity then
        some { job_id := job.id, job_title := job.title, company := job.company,
               location := job.location.getD "Not specified",
               semantic_score := similarity,
               skills_match_score := 0,     -- not calculated for similar jobs
               experience_match_score := 0,
               salary_match_score := 0,
               location_match_score := 0,
               overall_score := similarity,
               match_reasons := ["Similar to " ++ ref.title ++ " at " ++ ref.company] }
      else none

/-- Model of `find_similar_jobs` from search_engine.py.  `jobs` is the job table
(`job_repo.get_job` fetches from it by id, `_get_filtered_jobs()` returns all
of it), `sim j` is the cosine similarity between the embedding of the
reference job and the embedding of `j` (`none` = per-job failure, skipped). -/
def find_similar_jobs (jobs : List JobRec) (sim : JobRec → Option ℚ)
    (job_id : String) (limit : ℕ) : List JobMatch :=
  match jobs.find? (fun j => j.id == job_id) with
  | none => []
  | some ref =>
    (sort_by_semantic (jobs.filterMap (similar_candidate ref sim job_id))).take limit

/-- Model of `search_jobs_semantic` from search_engine.py.  `jobs` is the filtered
candidate set returned by `_get_filtered_jobs(filters)`; `calc_match j`
models `_calculate_job_match(j, query_embedding, user_embedding, profile)`
(`none` = the per-job exception handler fired, the job is skipped). -/
def search_jobs_semantic (jobs : List JobRec) (calc_match : JobRec → Option JobMatch)
    (limit : ℕ) : List JobMatch :=
  if jobs = [] then []                      -- no jobs found matching filters
  else
    let job_matches := jobs.filterMap calc_match
    (sort_by_overall job_matches).take limit

/-! ## `find_most_similar` from embeddings.py

`sim v` is `cosine_similarity(query_embedding, v)` for the fixed query
vector; the candidate list may contain `None` entries. -/

/-- The `similarities` list of `find_most_similar`: each candidate with its
original index, a `None` candidate scoring 0.0. -/
def enum_scores (sim : β → ℚ) (candidate_embeddings : List (Option β)) : List (ℕ × ℚ) :=
  candidate_embeddings.enum.map (fun p =>
    (p.1, match p.2 with
          | some v => sim v
          | none => (0 : ℚ)))

def find_most_similar (sim : β → ℚ) (candidate_embeddings : List (Option β))
    (top_k : ℕ) : List (ℕ × ℚ) :=
  ((enum_scores sim candidate_embeddings).mergeSort (fun a b => decide (b.2 ≤ a.2))).take top_k

/-! ## `calculate_similarity` from embeddings.py

`calculate_similarity` reshapes the two embeddings and calls sklearn's
`cosine_similarity`, which L2-normalises each row — replacing a zero norm by
1, so a zero vector stays the zero vector — and takes the dot product.
Square roots force the model over `ℝ`. -/

/-- Dot product of two vectors (trailing entries of the longer one are
ignored; the real vectors always have equal length). -/
def dot : List ℝ → List ℝ → ℝ
  | x :: xs, y :: ys => x * y + dot xs ys
  | _, _ => 0

/-- Euclidean norm of a vector. -/
noncomputable def vec_norm (v : List ℝ) : ℝ := Real.sqrt (dot v v)

/-- The norm sklearn divides by: `normalize` replaces a zero norm by 1. -/
noncomputable def safe_norm (v : List ℝ) : ℝ :=
  if vec_norm v = 0 then 1 else vec_norm v

/-- Model of `calculate_similarity` from embeddings.py (cosine similarity via
sklearn's `cosine_similarity` on the two reshaped embeddings). -/
noncomputable def calculate_similarity (embedding1 embedding2 : List ℝ) : ℝ :=
  dot embedding1 embedding2 / (safe_norm embedding1 * safe_norm embedding2)

/-! ## The no-LLM fallback of llm_analyzer.py -/

/-- Model of `_fallback_match_explanation` from llm_analyzer.py.  `title`/`company`
are `job_dict.get('title', 'position')` and `job_dict.get('company', 'this
company')`; `overall_score` is `match_scores.get('overall_score', 0)`. -/
def fallback_match_explanation (title company : Option String)
    (overall_score : Option ℚ) : String :=
  let t := title.getD "position"
  let c := company.getD "this company"
  let score := overall_score.getD 0
  if 0.7 ≤ score then
    "This looks like a strong match for the " ++ t ++ " role at " ++ c ++
      ". Your skills and experience align well with their requirements."
  else if 0.5 ≤ score then
    "This could be a good opportunity for the " ++ t ++
      " role. There are some areas of alignment, though you may want to highlight specific relevant experiences in your application."
  else
    "This " ++ t ++
      " role might be a stretch, but could offer growth opportunities. Consider whether you\x27re ready to take on new challenges in areas where you have less experience."

/-- Model of `generate_match_explanation` from llm_analyzer.py.  `llm = none` models
`self.client is None` (no LLM provider configured); `llm = some none` a
request that failed (returned `None`); `llm = some (some s)` a response `s`
(the empty string is falsy in Python and also falls back). -/
def generate_match_explanation (llm : Option (Option String))
    (title company : Option String) (overall_score : Option ℚ) : String :=
  match llm with
  | none => fallback_match_explanation title company overall_score
  | some none => fallback_match_explanation title company overall_score
  | some (some response) =>
    if response = "" then fallback_match_explanation title company overall_score
    else response.trim

/-! ## Helper lemmas -/

theorem round3_nonneg {q : ℚ} (h : 0 ≤ q) : 0 ≤ round3 q := by
  unfold round3
  have h1 : (0 : ℤ) ≤ round (q * 1000) := by
    rw [round_eq]
    exact Int.le_floor.mpr (by push_cast; linarith)
  have h2 : (0 : ℚ) ≤ ((round (q * 1000) : ℤ) : ℚ) := by exact_mod_cast h1
  positivity

theorem round3_le_one {q : ℚ} (h : q ≤ 1) : round3 q ≤ 1 := by
  unfold round3
  have h0 : (⌊(1000 : ℚ) + 1 / 2⌋ : ℤ) = 1000 := by norm_num
  have h1 : round (q * 1000) ≤ 1000 := by
    rw [round_eq]
    calc ⌊q * 1000 + 1 / 2⌋ ≤ ⌊(1000 : ℚ) + 1 / 2⌋ := Int.floor_le_floor (by linarith)
    _ = 1000 := h0
  rw [div_le_one (by norm_num)]
  exact_mod_cast h1

/-! ## Claim theorems -/

/-- C2: for sub-scores in [0,1] the overall score equals
`round(0.35*semantic + 0.25*skills + 0.20*experience + 0.15*salary +
0.05*location, 3)` and lies in [0,1]. -/
theorem calculate_overall_score_spec (semantic skills experience salary location : ℚ)
    (hs : 0 ≤ semantic ∧ semantic ≤ 1) (hk : 0 ≤ skills ∧ skills ≤ 1)
    (he : 0 ≤ experience ∧ experience ≤ 1) (hsa : 0 ≤ salary ∧ salary ≤ 1)
    (hl : 0 ≤ location ∧ location ≤ 1) :
    calculate_overall_score semantic skills experience salary location =
      round3 (0.35 * semantic + 0.25 * skills + 0.20 * experience +
        0.15 * salary + 0.05 * location) ∧
    0 ≤ calculate_overall_score semantic skills experience salary location ∧
    calculate_overall_score semantic skills experience salary location ≤ 1 := by
  obtain ⟨hs0, hs1⟩ := hs
  obtain ⟨hk0, hk1⟩ := hk
  obtain ⟨he0, he1⟩ := he
  obtain ⟨hsa0, hsa1⟩ := hsa
  obtain ⟨hl0, hl1⟩ := hl
  have harg : semantic * 0.35 + skills * 0.25 + experience * 0.20 +
      salary * 0.15 + location * 0.05 =
      0.35 * semantic + 0.25 * skills + 0.20 * experience +
        0.15 * salary + 0.05 * location := by ring
  refine ⟨by rw [calculate_overall_score, harg], ?_, ?_⟩
  · rw [calculate_overall_score]
    exact round3_nonneg (by linarith)
  · rw [calculate_overall_score]
    exact round3_le_one (by linarith)

/-- C2 witness: the overall-score specification at the all-ones sub-score
tuple. -/
theorem calculate_overall_score_spec_witness :
    calculate_overall_score 1 1 1 1 1 =
      round3 (0.35 * 1 + 0.25 * 1 + 0.20 * 1 + 0.15 * 1 + 0.05 * 1) ∧
    0 ≤ calculate_overall_score 1 1 1 1 1 ∧ calculate_overall_score 1 1 1 1 1 ≤ 1 :=
  calculate_overall_score_spec 1 1 1 1 1 (by norm_num) (by norm_num) (by norm_num)
    (by norm_num) (by norm_num)

/-- C3 (amended): for a profile whose `experience_years` is nonzero (a zero
value is falsy in Python and scores the neutral 0.5, see the counterexample),
the experience score is 1.0 inside the inclusive band of the job level,
`max(0, 1 - gap/5)` below it, `max(0.6, 1 - gap/10)` above it, and 0.5 for an
unknown level; the level bands and the three worked examples of the spec. -/
theorem calculate_experience_match_spec :
    (∀ (lvl : String) (lo hi y : ℚ), y ≠ 0 →
      level_to_years (lower lvl) = some (lo, hi) →
      ((lo ≤ y ∧ y ≤ hi → calculate_experience_match (some lvl) (some y) = 1) ∧
       (y < lo → calculate_experience_match (some lvl) (some y) = max 0 (1 - (lo - y) / 5)) ∧
       (hi < y → calculate_experience_match (some lvl) (some y) = max 0.6 (1 - (y - hi) / 10)))) ∧
    (∀ (lvl : String) (y : ℚ), y ≠ 0 → level_to_years (lower lvl) = none →
      calculate_experience_match (some lvl) (some y) = 0.5) ∧
    (∀ lvl, calculate_experience_match lvl (some 0) = 0.5) ∧
    (level_to_years "entry_level" = some (0, 2) ∧ level_to_years "associate" = some (1, 3) ∧
     level_to_years "mid_level" = some (3, 7) ∧ level_to_years "senior_level" = some (5, 12) ∧
     level_to_years "director" = some (8, 20) ∧ level_to_years "executive" = some (10, 30)) ∧
    (calculate_experience_match (some "mid_level") (some 4) = 1 ∧
     calculate_experience_match (some "mid_level") (some 1) = 0.6 ∧
     calculate_experience_match (some "mid_level") (some 15) = 0.6) := by
  have hmain : ∀ (lvl : String) (lo hi y : ℚ), y ≠ 0 →
      level_to_years (lower lvl) = some (lo, hi) →
      ((lo ≤ y ∧ y ≤ hi → calculate_experience_match (some lvl) (some y) = 1) ∧
       (y < lo → calculate_experience_match (some lvl) (some y) = max 0 (1 - (lo - y) / 5)) ∧
       (hi < y → calculate_experience_match (some lvl) (some y) = max 0.6 (1 - (y - hi) / 10))) := by
    intro lvl lo hi y hy hlvl
    have hband : lo ≤ hi := by
      unfold level_to_years at hlvl
      split_ifs at hlvl <;>
        (rw [Option.some.injEq, Prod.mk.injEq] at hlvl
         obtain ⟨h1, h2⟩ := hlvl
         subst h1
         subst h2
         norm_num)
    have hunfold : calculate_experience_match (some lvl) (some y) =
        (if lo ≤ y ∧ y ≤ hi then 1.0
         else if y < lo then max 0.0 (1.0 - (lo - y) / 5)
         else max 0.6 (1.0 - (y - hi) / 10)) := by
      simp only [calculate_experience_match, Option.getD_some]
      rw [if_neg hy, hlvl]
    refine ⟨fun h12 => ?_, fun hlt => ?_, fun hgt => ?_⟩
    · rw [hunfold, if_pos h12]
      norm_num
    · rw [hunfold, if_neg (fun hc => absurd hc.1 (not_le.mpr hlt)), if_pos hlt]
      norm_num
    · have h1 : ¬ (lo ≤ y ∧ y ≤ hi) := fun hc => absurd hc.2 (not_le.mpr hgt)
      have h2 : ¬ (y < lo) := not_lt.mpr (hband.trans hgt.le)
      rw [hunfold, if_neg h1, if_neg h2]
      norm_num
  have hmid : level_to_years (lower "mid_level") = some (3, 7) := by decide
  refine ⟨hmain, ?_, ?_, by decide, ?_, ?_, ?_⟩
  · intro lvl y hy hlvl
    simp only [calculate_experience_match, Option.getD_some]
    rw [if_neg hy, hlvl]
  · intro lvl
    simp [calculate_experience_match]
  · exact (hmain "mid_level" 3 7 4 (by norm_num) hmid).1 ⟨by norm_num, by norm_num⟩
  · exact ((hmain "mid_level" 3 7 1 (by norm_num) hmid).2.1 (by norm_num)).trans
      (by norm_num [max_def])
  · exact ((hmain "mid_level" 3 7 15 (by norm_num) hmid).2.2 (by norm_num)).trans
      (by norm_num [max_def])

/-- C3 counterexample: a profile that supplies `experience_years = 0` (an
integer ≥ 0, inside the entry_level band (0,2)) is claimed to score 1.0, but
the code treats the falsy value 0 as missing data and scores 0.5. -/
theorem calculate_experience_match_zero_years_cex :
    calculate_experience_match (some "entry_level") (some 0) = 0.5 ∧ (0.5 : ℚ) ≠ 1 := by
  constructor
  · simp [calculate_experience_match]
  · norm_num

/-- C3 witness: 6 years at senior_level (band 5..12) scores 1.0. -/
theorem calculate_experience_match_spec_witness :
    calculate_experience_match (some "senior_level") (some 6) = 1 :=
  (calculate_experience_match_spec.1 "senior_level" 5 12 6 (by norm_num) (by decide)).1
    ⟨by norm_num, by norm_num⟩

/-- C5: with a non-empty user skills list and a job that lists skills, the
skills score is `|user_skills ∩ job_skills| / |job_skills|` (case-insensitive,
`job_skills` = required ∪ preferred); 0.5 when the profile has no skills or
the job lists none; and the worked example of the spec scores 1/3. -/
theorem calculate_skills_match_spec :
    (∀ r p, calculate_skills_match r p [] = 0.5) ∧
    (∀ u, calculate_skills_match [] [] u = 0.5) ∧
    (∀ r p u, u ≠ [] → job_skills r p ≠ [] →
      calculate_skills_match r p u =
        (((job_skills r p).filter (fun s => ((u.map lower).dedup).contains s)).length : ℚ) /
          ((job_skills r p).length : ℚ)) ∧
    calculate_skills_match ["Python", "SQL"] ["AWS"] ["python", "java"] = 1 / 3 := by
  have hmain : ∀ r p u, u ≠ [] → job_skills r p ≠ [] →
      calculate_skills_match r p u =
        (((job_skills r p).filter (fun s => ((u.map lower).dedup).contains s)).length : ℚ) /
          ((job_skills r p).length : ℚ) := by
    intro r p u hu hjs
    have hpos : (0 : ℚ) < ((job_skills r p).length : ℚ) := by
      exact_mod_cast List.length_pos.mpr hjs
    have hle : ((job_skills r p).filter (fun s => ((u.map lower).dedup).contains s)).length ≤
        (job_skills r p).length := List.length_filter_le _ _
    simp only [calculate_skills_match, if_neg hu, if_neg hjs]
    exact min_eq_left ((div_le_one hpos).mpr (by exact_mod_cast hle))
  refine ⟨fun r p => by simp [calculate_skills_match], fun u => ?_, hmain, ?_⟩
  · by_cases hu : u = []
    · simp [calculate_skills_match, hu]
    · simp [calculate_skills_match, hu, job_skills]
  · have h := hmain ["Python", "SQL"] ["AWS"] ["python", "java"] (by simp) (by decide)
    rw [h]
    have h1 : ((job_skills ["Python", "SQL"] ["AWS"]).filter
        (fun s => (((["python", "java"] : List String).map lower).dedup).contains s)).length
        = 1 := by decide
    have h2 : (job_skills ["Python", "SQL"] ["AWS"]).length = 3 := by decide
    rw [h1, h2]
    norm_num

/-- C5 witness: the skills-ratio clause at a one-skill job matched
case-insensitively by the single user skill. -/
theorem calculate_skills_match_spec_witness :
    calculate_skills_match ["Java"] [] ["JAVA"] = 1 := by
  have h := calculate_skills_match_spec.2.2.1 ["Java"] [] ["JAVA"] (by simp) (by decide)
  rw [h]
  have h1 : ((job_skills ["Java"] []).filter
      (fun s => (((["JAVA"] : List String).map lower).dedup).contains s)).length = 1 := by
    decide
  have h2 : (job_skills ["Java"] []).length = 1 := by decide
  rw [h1, h2]
  norm_num

/-- C10: with a non-empty preference list and a missing or empty job
location, the location score is 1.0 (the lower-cased empty job location is a
substring of every preferred location), whatever the remote type. -/
theorem calculate_location_match_empty_location (preferred_locations : List String)
    (location remote_type : Option String) (hp : preferred_locations ≠ [])
    (hloc : location = none ∨ location = some "") :
    calculate_location_match preferred_locations location remote_type = 1 := by
  have hjl : lower (location.getD "") = "" := by
    rcases hloc with h | h <;> subst h <;> rfl
  rcases preferred_locations with _ | ⟨p, ps⟩
  · exact absurd rfl hp
  have hany : ((p :: ps).map lower).any (fun user_loc =>
      decide (str_contains "" user_loc) || decide (str_contains user_loc "")) = true := by
    simp only [List.map_cons, List.any_cons, Bool.or_eq_true, decide_eq_true_eq]
    left
    right
    exact List.nil_infix
  rw [calculate_location_match, if_neg hp, hjl]
  by_cases hc1 : ((p :: ps).map lower).contains "remote" ∧
      (lower (remote_type.getD "") = "remote" ∨ lower (remote_type.getD "") = "hybrid")
  · rw [if_pos hc1]
    norm_num
  · rw [if_neg hc1, if_pos hany]
    norm_num

/-- C10 witness: an on-site job with an empty location against preference
["Seattle"] scores 1.0. -/
theorem calculate_location_match_empty_location_witness :
    calculate_location_match ["Seattle"] (some "") (some "on_site") = 1 :=
  calculate_location_match_empty_location ["Seattle"] (some "") (some "on_site")
    (by simp) (Or.inr rfl)

/-! ## Computation lemmas for `FVal` -/

@[simp]
theorem FVal_pymin_fin_fin (a b : ℚ) :
    FVal.pymin (FVal.fin a) (FVal.fin b) = FVal.fin (min a b) := by
  rcases le_or_lt a b with h | h
  · rw [FVal.pymin]
    simp [FVal.flt, not_lt.mpr h, min_eq_left h]
  · rw [FVal.pymin]
    simp [FVal.flt, h, min_eq_right h.le]

@[simp]
theorem FVal_pymin_inf_inf : FVal.pymin FVal.inf FVal.inf = FVal.inf := rfl

@[simp]
theorem FVal_pymin_nan_fin (b : ℚ) : FVal.pymin FVal.nan (FVal.fin b) = FVal.nan := rfl

/-- C4 (amended): the branch structure of the salary scorer.  Neither side
truthy → 0.5; job side missing → 0.4; user side missing → 0.5; overlapping
finite ranges of positive length → overlap / average range length, capped at
1; an overlapping range of zero length (a point range on either side) → 1.0;
disjoint positive ranges → `max(0, 1 - gap / mean of the four bounds)`; both
upper bounds absent → the Python computation produces NaN (inf/inf); and the
worked example of the spec, `30000/65000 ≈ 0.4615`. -/
theorem calculate_salary_match_spec :
    (calculate_salary_match none none none none = FVal.fin 0.5) ∧
    (∀ user_min user_max, truthy user_min ∨ truthy user_max →
      calculate_salary_match user_min user_max none none = FVal.fin 0.4) ∧
    (∀ job_min job_max, truthy job_min ∨ truthy job_max →
      calculate_salary_match none none job_min job_max = FVal.fin 0.5) ∧
    (∀ umin umax jmin jmax : ℚ, 0 < umin → umin < umax → 0 < jmin → jmin < jmax →
      max jmin umin ≤ min jmax umax →
      calculate_salary_match (some umin) (some umax) (some jmin) (some jmax) =
        FVal.fin (min ((min jmax umax - max jmin umin) /
          (((jmax - jmin) + (umax - umin)) / 2)) 1)) ∧
    (∀ umin umax jmin jmax : ℚ, 0 < umin → umin ≤ umax → 0 < jmin → jmin ≤ jmax →
      max jmin umin ≤ min jmax umax → (jmax = jmin ∨ umax = umin) →
      calculate_salary_match (some umin) (some umax) (some jmin) (some jmax) = FVal.fin 1) ∧
    (∀ umin umax jmin jmax : ℚ, 0 < umin → 0 < umax → 0 < jmin → 0 < jmax →
      min jmax umax < max jmin umin →
      calculate_salary_match (some umin) (some umax) (some jmin) (some jmax) =
        FVal.fin (max 0 (1 - (max jmin umin - min jmax umax) /
          ((jmin + jmax + umin + umax) / 4)))) ∧
    (∀ umin jmin : ℚ, 0 < umin → 0 < jmin →
      calculate_salary_match (some umin) none (some jmin) none = FVal.nan) ∧
    (calculate_salary_match (some 120000) (some 200000) (some 100000) (some 150000) =
      FVal.fin (30000 / 65000)) := by
  have hd : ∀ umin umax jmin jmax : ℚ, 0 < umin → umin < umax → 0 < jmin → jmin < jmax →
      max jmin umin ≤ min jmax umax →
      calculate_salary_match (some umin) (some umax) (some jmin) (some jmax) =
        FVal.fin (min ((min jmax umax - max jmin umin) /
          (((jmax - jmin) + (umax - umin)) / 2)) 1) := by
    intro umin umax jmin jmax hu0 huu hj0 hjj hov
    have hun : umin ≠ 0 := ne_of_gt hu0
    have hxn : umax ≠ 0 := ne_of_gt (hu0.trans huu)
    have hjn : jmin ≠ 0 := ne_of_gt hj0
    have hxj : jmax ≠ 0 := ne_of_gt (hj0.trans hjj)
    simp only [calculate_salary_match, truthy, salary_high, Option.getD_some,
      decide_eq_true_eq]
    rw [if_neg (not_not_intro (Or.inl hun)), if_neg (fun h => h.1 hjn),
      if_neg (fun h => h.1 hun), if_neg hxj, if_neg hxn]
    simp only [FVal_pymin_fin_fin, FVal.fle, decide_eq_true_eq]
    rw [if_pos hov]
    simp only [FVal.subQ]
    rw [if_pos ⟨by simp [FVal.flt, sub_pos.mpr hjj], by simp [FVal.flt, sub_pos.mpr huu]⟩]
    simp only [FVal.add, FVal.halve, FVal.div, FVal_pymin_fin_fin]
  have hf : ∀ umin umax jmin jmax : ℚ, 0 < umin → 0 < umax → 0 < jmin → 0 < jmax →
      min jmax umax < max jmin umin →
      calculate_salary_match (some umin) (some umax) (some jmin) (some jmax) =
        FVal.fin (max 0 (1 - (max jmin umin - min jmax umax) /
          ((jmin + jmax + umin + umax) / 4))) := by
    intro umin umax jmin jmax hu0 hux hj0 hjx hno
    have hun : umin ≠ 0 := ne_of_gt hu0
    have hxn : umax ≠ 0 := ne_of_gt hux
    have hjn : jmin ≠ 0 := ne_of_gt hj0
    have hxj : jmax ≠ 0 := ne_of_gt hjx
    simp only [calculate_salary_match, truthy, salary_high, Option.getD_some,
      decide_eq_true_eq]
    rw [if_neg (not_not_intro (Or.inl hun)), if_neg (fun h => h.1 hjn),
      if_neg (fun h => h.1 hun), if_neg hxj, if_neg hxn]
    simp only [FVal_pymin_fin_fin, FVal.fle, decide_eq_true_eq]
    rw [if_neg (not_le.mpr hno)]
    have hfm : (([some jmin, some jmax, some umin, some umax] : List (Option ℚ)).filterMap id)
        = [jmin, jmax, umin, umax] := by simp
    rw [hfm]
    have hfil : ([jmin, jmax, umin, umax].filter (fun v => decide (v ≠ 0))) =
        [jmin, jmax, umin, umax] := by
      simp [List.filter, hjn, hxj, hun, hxn]
    rw [hfil]
    have hsum : ([jmin, jmax, umin, umax].sum / (([jmin, jmax, umin, umax].length : ℕ) : ℚ)) =
        (jmin + jmax + umin + umax) / 4 := by
      simp [List.sum_cons]
      ring
    rw [hsum]
    have havg : (0 : ℚ) < (jmin + jmax + umin + umax) / 4 := by positivity
    rw [if_pos havg]
  refine ⟨?_, ?_, ?_, hd, ?_, hf, ?_, ?_⟩
  · simp [calculate_salary_match, truthy]
  · intro user_min user_max h
    simp only [calculate_salary_match, truthy]
    rw [if_neg (not_not_intro (by
        rcases h with h | h
        · exact Or.inl (by simpa [truthy] using h)
        · exact Or.inr (Or.inl (by simpa [truthy] using h)))),
      if_pos ⟨by simp, by simp⟩]
  · intro job_min job_max h
    simp only [calculate_salary_match, truthy]
    rw [if_neg (not_not_intro (by
        rcases h with h | h
        · exact Or.inr (Or.inr (Or.inl (by simpa [truthy] using h)))
        · exact Or.inr (Or.inr (Or.inr (by simpa [truthy] using h))))),
      if_neg (fun hc => ?_), if_pos ⟨by simp, by simp⟩]
    rcases h with h | h
    · exact hc.1 (by simpa [truthy] using h)
    · exact hc.2 (by simpa [truthy] using h)
  · intro umin umax jmin jmax hu0 huu hj0 hjj hov hz
    have hun : umin ≠ 0 := ne_of_gt hu0
    have hxn : umax ≠ 0 := ne_of_gt (lt_of_lt_of_le hu0 huu)
    have hjn : jmin ≠ 0 := ne_of_gt hj0
    have hxj : jmax ≠ 0 := ne_of_gt (lt_of_lt_of_le hj0 hjj)
    simp only [calculate_salary_match, truthy, salary_high, Option.getD_some,
      decide_eq_true_eq]
    rw [if_neg (not_not_intro (Or.inl hun)), if_neg (fun h => h.1 hjn),
      if_neg (fun h => h.1 hun), if_neg hxj, if_neg hxn]
    simp only [FVal_pymin_fin_fin, FVal.fle, decide_eq_true_eq]
    rw [if_pos hov]
    simp only [FVal.subQ]
    rw [if_neg ?both]
    case both =>
      rcases hz with hz | hz
      · intro hc
        rw [hz] at hc
        simp [FVal.flt] at hc
      · intro hc
        rw [hz] at hc
        simp [FVal.flt] at hc
  · intro umin jmin hu0 hj0
    have hun : umin ≠ 0 := ne_of_gt hu0
    have hjn : jmin ≠ 0 := ne_of_gt hj0
    simp only [calculate_salary_match, truthy, salary_high, Option.getD_some,
      decide_eq_true_eq]
    rw [if_neg (not_not_intro (Or.inl hun)), if_neg (fun h => h.1 hjn),
      if_neg (fun h => h.1 hun)]
    simp [FVal.pymin, FVal.flt, FVal.fle, FVal.subQ, FVal.add, FVal.halve, FVal.div]
  · have h := hd 120000 200000 100000 150000 (by norm_num) (by norm_num) (by norm_num)
      (by norm_num) (by norm_num)
    rw [h]
    congr 1
    rw [min_eq_left (by norm_num)]
    norm_num

/-- C4 counterexample: a point job range [100000, 100000] inside the user
range [50000, 200000] overlaps it, and the claimed formula
`overlap / average range length, capped at 1` gives 0, but the code returns
1.0 whenever either range has length ≤ 0. -/
theorem calculate_salary_match_point_range_cex :
    calculate_salary_match (some 50000) (some 200000) (some 100000) (some 100000) =
      FVal.fin 1 ∧
    min (((100000 : ℚ) - 100000) / ((((100000 : ℚ) - 100000) + (200000 - 50000)) / 2)) 1
      ≠ 1 := by
  constructor
  · norm_num [calculate_salary_match, truthy, salary_high, FVal.pymin, FVal.fle, FVal.flt,
      FVal.subQ]
  · rw [min_eq_left (by norm_num)]
    norm_num

/-- C4 witness: the overlap formula at the spec example, job range
[100000, 150000] against desired range [120000, 200000]. -/
theorem calculate_salary_match_spec_witness :
    calculate_salary_match (some 120000) (some 200000) (some 100000) (some 150000) =
      FVal.fin (min ((min 150000 200000 - max 100000 (120000 : ℚ)) /
        ((((150000 : ℚ) - 100000) + (200000 - 120000)) / 2)) 1) :=
  calculate_salary_match_spec.2.2.2.1 120000 200000 100000 150000 (by norm_num)
    (by norm_num) (by norm_num) (by norm_num) (by norm_num)

/-! ## Dot-product lemmas for `calculate_similarity` -/

theorem dot_nil (b : List ℝ) : dot [] b = 0 := by cases b <;> rfl

theorem dot_nil_right (a : List ℝ) : dot a [] = 0 := by cases a <;> rfl

theorem dot_self_nonneg (v : List ℝ) : 0 ≤ dot v v := by
  induction v with
  | nil => simp [dot]
  | cons x xs ih => rw [dot]; nlinarith [mul_self_nonneg x]

theorem dot_left_zero {a : List ℝ} (h : dot a a = 0) (b : List ℝ) : dot a b = 0 := by
  induction a generalizing b with
  | nil => exact dot_nil b
  | cons x xs ih =>
    rw [dot] at h
    have hxs : dot xs xs = 0 := by nlinarith [mul_self_nonneg x, dot_self_nonneg xs]
    have hx : x = 0 := by
      have : x * x = 0 := by nlinarith [dot_self_nonneg xs]
      exact mul_self_eq_zero.mp this
    cases b with
    | nil => exact dot_nil_right _
    | cons y ys =>
      rw [dot, hx, ih hxs ys]
      ring

theorem dot_comm (a b : List ℝ) : dot a b = dot b a := by
  induction a generalizing b with
  | nil => rw [dot_nil, dot_nil_right]
  | cons x xs ih =>
    cases b with
    | nil => rw [dot_nil, dot_nil_right]
    | cons y ys =>
      rw [dot, dot, ih]
      ring

theorem dot_sq_le (a b : List ℝ) : (dot a b) ^ 2 ≤ dot a a * dot b b := by
  induction a generalizing b with
  | nil =>
    rw [dot_nil]
    simp [dot_nil]
  | cons x xs ih =>
    cases b with
    | nil =>
      rw [dot_nil_right, dot_nil_right]
      simp
    | cons y ys =>
      have h := ih ys
      have ha := dot_self_nonneg xs
      have hb := dot_self_nonneg ys
      rw [dot, dot, dot]
      rcases eq_or_lt_of_le hb with hb0 | hbpos
      · have hD : dot xs ys = 0 := by nlinarith [sq_nonneg (dot xs ys)]
        rw [hD]
        nlinarith [mul_nonneg ha (sq_nonneg y), sq_nonneg (x * y)]
      · nlinarith [sq_nonneg (x * dot ys ys - y * dot xs ys),
          mul_nonneg (sq_nonneg y) (sub_nonneg.mpr h),
          mul_nonneg hb (sub_nonneg.mpr h), hbpos]

theorem dot_self_zero_iff (v : List ℝ) : dot v v = 0 ↔ ∀ x ∈ v, x = 0 := by
  induction v with
  | nil => simp [dot]
  | cons x xs ih =>
    rw [dot]
    constructor
    · intro h
      have hxs : dot xs xs = 0 := by nlinarith [mul_self_nonneg x, dot_self_nonneg xs]
      have hx : x = 0 := by
        have : x * x = 0 := by nlinarith [dot_self_nonneg xs]
        exact mul_self_eq_zero.mp this
      intro z hz
      rcases List.mem_cons.mp hz with rfl | hz
      · exact hx
      · exact (ih.mp hxs) z hz
    · intro h
      rw [h x (List.mem_cons_self x xs), ih.mpr (fun z hz => h z (List.mem_cons_of_mem x hz))]
      ring

/-- C1 (amended): `calculate_similarity` returns the raw cosine similarity,
which lies in [-1, 1] (not [0, 1]: the code performs no renormalisation, see
the counterexample), and a degenerate zero vector on either side yields 0.0
rather than an error (sklearn replaces a zero norm by 1). -/
theorem calculate_similarity_props (a b : List ℝ) :
    (-1 ≤ calculate_similarity a b ∧ calculate_similarity a b ≤ 1) ∧
    (((∀ x ∈ a, x = 0) ∨ (∀ x ∈ b, x = 0)) → calculate_similarity a b = 0) := by
  have hzero : ((∀ x ∈ a, x = 0) ∨ (∀ x ∈ b, x = 0)) → calculate_similarity a b = 0 := by
    intro h
    rcases h with h | h
    · have hab : dot a b = 0 := dot_left_zero ((dot_self_zero_iff a).mpr h) b
      simp [calculate_similarity, hab]
    · have hbb : dot b b = 0 := (dot_self_zero_iff b).mpr h
      have hab : dot a b = 0 := by
        rw [dot_comm]
        exact dot_left_zero hbb a
      simp [calculate_similarity, hab]
  refine ⟨?_, hzero⟩
  by_cases ha : vec_norm a = 0
  · have haz : dot a a = 0 :=
      le_antisymm (Real.sqrt_eq_zero'.mp ha) (dot_self_nonneg a)
    have h0 : calculate_similarity a b = 0 := by
      simp [calculate_similarity, dot_left_zero haz b]
    rw [h0]
    norm_num
  by_cases hb : vec_norm b = 0
  · have hbz : dot b b = 0 :=
      le_antisymm (Real.sqrt_eq_zero'.mp hb) (dot_self_nonneg b)
    have h0 : calculate_similarity a b = 0 := by
      have hab : dot a b = 0 := by
        rw [dot_comm]
        exact dot_left_zero hbz a
      simp [calculate_similarity, hab]
    rw [h0]
    norm_num
  have hapos : 0 < vec_norm a := lt_of_le_of_ne (Real.sqrt_nonneg _) (Ne.symm ha)
  have hbpos : 0 < vec_norm b := lt_of_le_of_ne (Real.sqrt_nonneg _) (Ne.symm hb)
  have hcs : |dot a b| ≤ vec_norm a * vec_norm b := by
    have h1 : (dot a b) ^ 2 ≤ dot a a * dot b b := dot_sq_le a b
    have h2 : |dot a b| = Real.sqrt ((dot a b) ^ 2) := (Real.sqrt_sq_eq_abs _).symm
    rw [h2, vec_norm, vec_norm, ← Real.sqrt_mul (dot_self_nonneg a)]
    exact Real.sqrt_le_sqrt h1
  have hpos : 0 < vec_norm a * vec_norm b := mul_pos hapos hbpos
  have habs : |calculate_similarity a b| ≤ 1 := by
    rw [calculate_similarity, safe_norm, safe_norm, if_neg ha, if_neg hb, abs_div,
      abs_of_pos hpos]
    exact (div_le_one hpos).mpr hcs
  exact abs_le.mp habs

/-- C1 counterexample: at the embeddings [1] and [-1] the code returns the
raw cosine similarity -1, which is not in [0, 1]. -/
theorem calculate_similarity_negative_cex :
    calculate_similarity [1] [-1] = -1 ∧ ¬ (0 ≤ calculate_similarity [1] [-1]) := by
  have ha : vec_norm [1] = 1 := by
    rw [vec_norm, dot, dot_nil_right]
    norm_num
  have hb : vec_norm [-1] = 1 := by
    rw [vec_norm, dot, dot_nil_right]
    norm_num
  have h : calculate_similarity [1] [-1] = -1 := by
    rw [calculate_similarity, safe_norm, safe_norm, ha, hb, if_neg one_ne_zero,
      dot, dot_nil_right]
    norm_num
  rw [h]
  norm_num

/-- C1 witness: the zero vector [0, 0] against [3, 4] scores 0.0. -/
theorem calculate_similarity_props_witness :
    calculate_similarity [0, 0] [3, 4] = 0 :=
  (calculate_similarity_props [0, 0] [3, 4]).2
    (Or.inl (by
      intro x hx
      rcases List.mem_cons.mp hx with rfl | hx
      · rfl
      · rcases List.mem_cons.mp hx with rfl | hx
        · rfl
        · cases hx))

/-! ## Sorting lemmas for the search pipeline -/

theorem sort_by_semantic_sorted (l : List JobMatch) :
    (sort_by_semantic l).Pairwise (fun a b => b.semantic_score ≤ a.semantic_score) := by
  have htrans : ∀ a b c : JobMatch,
      (fun a b : JobMatch => decide (b.semantic_score ≤ a.semantic_score)) a b →
      (fun a b : JobMatch => decide (b.semantic_score ≤ a.semantic_score)) b c →
      (fun a b : JobMatch => decide (b.semantic_score ≤ a.semantic_score)) a c := by
    intro a b c hab hbc
    simp only [decide_eq_true_eq] at *
    exact le_trans hbc hab
  have htotal : ∀ a b : JobMatch,
      (fun a b : JobMatch => decide (b.semantic_score ≤ a.semantic_score)) a b ||
      (fun a b : JobMatch => decide (b.semantic_score ≤ a.semantic_score)) b a := by
    intro a b
    simpa using le_total b.semantic_score a.semantic_score
  have h := List.sorted_mergeSort htrans htotal l
  exact h.imp (fun hab => of_decide_eq_true hab)

theorem sort_by_overall_sorted (l : List JobMatch) :
    (sort_by_overall l).Pairwise (fun a b => b.overall_score ≤ a.overall_score) := by
  have htrans : ∀ a b c : JobMatch,
      (fun a b : JobMatch => decide (b.overall_score ≤ a.overall_score)) a b →
      (fun a b : JobMatch => decide (b.overall_score ≤ a.overall_score)) b c →
      (fun a b : JobMatch => decide (b.overall_score ≤ a.overall_score)) a c := by
    intro a b c hab hbc
    simp only [decide_eq_true_eq] at *
    exact le_trans hbc hab
  have htotal : ∀ a b : JobMatch,
      (fun a b : JobMatch => decide (b.overall_score ≤ a.overall_score)) a b ||
      (fun a b : JobMatch => decide (b.overall_score ≤ a.overall_score)) b a := by
    intro a b
    simpa using le_total b.overall_score a.overall_score
  have h := List.sorted_mergeSort htrans htotal l
  exact h.imp (fun hab => of_decide_eq_true hab)

theorem similar_candidate_props {ref : JobRec} {sim : JobRec → Option ℚ} {job_id : String}
    {job : JobRec} {m : JobMatch} (h : similar_candidate ref sim job_id job = some m) :
    m.job_id ≠ job_id ∧ 0.3 < m.semantic_score ∧ m.skills_match_score = 0 ∧
    m.experience_match_score = 0 ∧ m.salary_match_score = 0 ∧
    m.location_match_score = 0 ∧ m.overall_score = m.semantic_score := by
  unfold similar_candidate at h
  by_cases hid : job.id = job_id
  · rw [if_pos hid] at h
    cases h
  · rw [if_neg hid] at h
    cases hsim : sim job with
    | none =>
      rw [hsim] at h
      cases h
    | some similarity =>
      rw [hsim] at h
      dsimp only at h
      by_cases hs : (0.3 : ℚ) < similarity
      · rw [if_pos hs] at h
        injection h with h
        subst h
        exact ⟨hid, hs, rfl, rfl, rfl, rfl, rfl⟩
      · rw [if_neg hs] at h
        cases h

/-- C6: `find_similar_jobs` never returns the reference job id, only returns
matches with similarity above 0.30, is sorted descending by similarity and
truncated to `limit`, its four profile sub-scores are zero with
`overall_score = semantic_score`, and an unknown reference id yields `[]`. -/
theorem find_similar_jobs_spec (jobs : List JobRec) (sim : JobRec → Option ℚ)
    (job_id : String) (limit : ℕ) :
    (∀ m ∈ find_similar_jobs jobs sim job_id limit,
      m.job_id ≠ job_id ∧ 0.3 < m.semantic_score ∧
      m.skills_match_score = 0 ∧ m.experience_match_score = 0 ∧
      m.salary_match_score = 0 ∧ m.location_match_score = 0 ∧
      m.overall_score = m.semantic_score) ∧
    (find_similar_jobs jobs sim job_id limit).Pairwise
      (fun a b => b.semantic_score ≤ a.semantic_score) ∧
    (find_similar_jobs jobs sim job_id limit).length ≤ limit ∧
    ((∀ j ∈ jobs, j.id ≠ job_id) → find_similar_jobs jobs sim job_id limit = []) := by
  cases hfind : jobs.find? (fun j => j.id == job_id) with
  | none =>
    have hres : find_similar_jobs jobs sim job_id limit = [] := by
      simp only [find_similar_jobs, hfind]
    rw [hres]
    simp
  | some ref =>
    have hres : find_similar_jobs jobs sim job_id limit =
        (sort_by_semantic (jobs.filterMap (similar_candidate ref sim job_id))).take limit := by
      simp only [find_similar_jobs, hfind]
    refine ⟨?_, ?_, ?_, ?_⟩
    · intro m hm
      rw [hres] at hm
      have hm2 : m ∈ sort_by_semantic (jobs.filterMap (similar_candidate ref sim job_id)) :=
        List.take_subset _ _ hm
      have hm3 : m ∈ jobs.filterMap (similar_candidate ref sim job_id) :=
        List.mem_mergeSort.mp hm2
      obtain ⟨job, _, hjob⟩ := List.mem_filterMap.mp hm3
      exact similar_candidate_props hjob
    · rw [hres]
      exact (sort_by_semantic_sorted _).sublist (List.take_sublist _ _)
    · rw [hres]
      exact List.length_take_le _ _
    · intro h
      have h1 := List.find?_some hfind
      have h2 := List.mem_of_find?_eq_some hfind
      exact absurd (beq_iff_eq.mp h1) (h ref h2)

/-- C6 witness: a one-job table whose only id differs from the reference id
gives the empty list (unknown reference job). -/
theorem find_similar_jobs_spec_witness :
    find_similar_jobs [⟨"a", "T", "C", none⟩] (fun _ => some 1) "b" 10 = [] :=
  (find_similar_jobs_spec [⟨"a", "T", "C", none⟩] (fun _ => some 1) "b" 10).2.2.2
    (by
      intro j hj
      rcases List.mem_cons.mp hj with rfl | hj
      · simp
      · cases hj)

/-- C7: `search_jobs_semantic` returns `[]` on an empty candidate set, at
most `limit` matches, sorted descending by `overall_score`; and a candidate
whose scoring fails (`calc_match j = none`) is skipped without affecting the
rest of the search. -/
theorem search_jobs_semantic_spec (jobs : List JobRec)
    (calc_match : JobRec → Option JobMatch) (limit : ℕ) :
    (jobs = [] → search_jobs_semantic jobs calc_match limit = []) ∧
    (search_jobs_semantic jobs calc_match limit).length ≤ limit ∧
    (search_jobs_semantic jobs calc_match limit).Pairwise
      (fun a b => b.overall_score ≤ a.overall_score) ∧
    (∀ xs ys j, jobs = xs ++ j :: ys → calc_match j = none →
      search_jobs_semantic jobs calc_match limit =
        search_jobs_semantic (xs ++ ys) calc_match limit) := by
  refine ⟨?_, ?_, ?_, ?_⟩
  · intro h
    simp [search_jobs_semantic, h]
  · by_cases h : jobs = []
    · simp [search_jobs_semantic, h]
    · rw [search_jobs_semantic, if_neg h]
      exact List.length_take_le _ _
  · by_cases h : jobs = []
    · simp [search_jobs_semantic, h]
    · rw [search_jobs_semantic, if_neg h]
      exact (sort_by_overall_sorted _).sublist (List.take_sublist _ _)
  · intro xs ys j hjobs hcalc
    subst hjobs
    have hne : xs ++ j :: ys ≠ [] := by simp
    have hfm : (xs ++ j :: ys).filterMap calc_match = (xs ++ ys).filterMap calc_match := by
      simp [List.filterMap_append, List.filterMap_cons, hcalc]
    rw [search_jobs_semantic, if_neg hne]
    by_cases hxy : xs ++ ys = []
    · rw [search_jobs_semantic, if_pos hxy, hfm, hxy]
      simp [sort_by_overall]
    · rw [search_jobs_semantic, if_neg hxy, hfm]

/-- C7 witness: a single candidate whose scoring fails produces the same
result as the empty candidate set, namely `[]`. -/
theorem search_jobs_semantic_spec_witness :
    search_jobs_semantic [⟨"a", "T", "C", none⟩] (fun _ => none) 5 = [] :=
  ((search_jobs_semantic_spec [⟨"a", "T", "C", none⟩] (fun _ => none) 5).2.2.2
      [] [] ⟨"a", "T", "C", none⟩ rfl rfl).trans
    ((search_jobs_semantic_spec [] (fun _ => none) 5).1 rfl)

/-! ## Stability of the descending sort in `find_most_similar` -/

theorem pairwise_fst_lt_pair_sublist {l : List (ℕ × ℚ)}
    (hl : l.Pairwise (fun a b => a.1 < b.1)) {p q : ℕ × ℚ}
    (hp : p ∈ l) (hq : q ∈ l) (hpq : p.1 < q.1) : List.Sublist [p, q] l := by
  induction l with
  | nil => cases hp
  | cons x t ih =>
    rw [List.pairwise_cons] at hl
    obtain ⟨hx, ht⟩ := hl
    rcases List.mem_cons.mp hp with rfl | hp'
    · rcases List.mem_cons.mp hq with rfl | hq'
      · exact absurd hpq (lt_irrefl _)
      · exact (List.singleton_sublist.mpr hq').cons₂ p
    · rcases List.mem_cons.mp hq with rfl | hq'
      · exact absurd hpq (lt_asymm (hx p hp'))
      · exact (ih ht hp' hq').cons x

theorem nodup_no_reversed_pair {α : Type*} {l : List α} (hl : l.Nodup) {a b : α}
    (hab : a ≠ b) (h1 : List.Sublist [a, b] l) (h2 : List.Sublist [b, a] l) : False := by
  induction l with
  | nil => simp at h1
  | cons x t ih =>
    rw [List.nodup_cons] at hl
    obtain ⟨hx, ht⟩ := hl
    cases h1 with
    | cons _ h1' =>
      cases h2 with
      | cons _ h2' => exact ih ht h1' h2'
      | cons₂ _ h2' => exact hx (h1'.subset (by simp))
    | cons₂ _ h1' =>
      cases h2 with
      | cons _ h2' => exact hx (h2'.subset (by simp))
      | cons₂ _ h2' => exact hab rfl

theorem mergeSort_desc_stable (l : List (ℕ × ℚ))
    (hl : l.Pairwise (fun a b => a.1 < b.1)) :
    (l.mergeSort (fun a b => decide (b.2 ≤ a.2))).Pairwise
      (fun p q => q.2 < p.2 ∨ (p.2 = q.2 ∧ p.1 < q.1)) := by
  have htrans : ∀ a b c : ℕ × ℚ, (fun a b : ℕ × ℚ => decide (b.2 ≤ a.2)) a b →
      (fun a b : ℕ × ℚ => decide (b.2 ≤ a.2)) b c →
      (fun a b : ℕ × ℚ => decide (b.2 ≤ a.2)) a c := by
    intro a b c hab hbc
    simp only [decide_eq_true_eq] at *
    exact le_trans hbc hab
  have htotal : ∀ a b : ℕ × ℚ, (fun a b : ℕ × ℚ => decide (b.2 ≤ a.2)) a b ||
      (fun a b : ℕ × ℚ => decide (b.2 ≤ a.2)) b a := by
    intro a b
    simpa using le_total b.2 a.2
  have hsorted := List.sorted_mergeSort htrans htotal l
  have hnodupfst : (l.map Prod.fst).Nodup := by
    rw [List.Nodup, List.pairwise_map]
    exact hl.imp (fun h => ne_of_lt h)
  have hnodup : l.Nodup := hnodupfst.of_map
  have hnodup2 : (l.mergeSort (fun a b => decide (b.2 ≤ a.2))).Nodup :=
    ((List.mergeSort_perm l _).nodup_iff).mpr hnodup
  rw [List.pairwise_iff_forall_sublist]
  intro a b hab
  have hmem_a : a ∈ l := List.mem_mergeSort.mp (hab.subset (by simp))
  have hmem_b : b ∈ l := List.mem_mergeSort.mp (hab.subset (by simp))
  have hba : b.2 ≤ a.2 := by
    have h := List.pairwise_iff_forall_sublist.mp hsorted hab
    simpa using h
  have hne : a ≠ b := List.pairwise_iff_forall_sublist.mp hnodup2 hab
  rcases eq_or_lt_of_le hba with heq | hlt
  · right
    refine ⟨heq.symm, ?_⟩
    have hfst : a.1 ≠ b.1 := by
      intro hf
      exact hne (List.inj_on_of_nodup_map hnodupfst hmem_a hmem_b hf)
    rcases hfst.lt_or_lt with hlt' | hlt'
    · exact hlt'
    · exfalso
      have hsub : List.Sublist [b, a] l := pairwise_fst_lt_pair_sublist hl hmem_b hmem_a hlt'
      have hle_ba : (fun a b : ℕ × ℚ => decide (b.2 ≤ a.2)) b a :=
        decide_eq_true heq.ge
      have hpair := List.pair_sublist_mergeSort htrans htotal hle_ba hsub
      exact nodup_no_reversed_pair hnodup2 hne hab hpair
  · left
    exact hlt

theorem enum_scores_pairwise {β : Type*} (sim : β → ℚ) (cands : List (Option β)) :
    (enum_scores sim cands).Pairwise (fun a b => a.1 < b.1) := by
  rw [List.pairwise_iff_getElem]
  intro i j hi hj hij
  have hi' : i < cands.length := by simpa [enum_scores] using hi
  have hj' : j < cands.length := by simpa [enum_scores] using hj
  have h1 : ((enum_scores sim cands)[i]).1 = i := by
    simp [enum_scores]
  have h2 : ((enum_scores sim cands)[j]).1 = j := by
    simp [enum_scores]
  rw [h1, h2]
  exact hij

/-- C8: `find_most_similar` is the `top_k`-prefix of the `similarities` list
sorted stably by descending score: its length is `min top_k n`, it is sorted
descending by score with ties in ascending index order, and a `None`
candidate contributes the pair (index, 0.0) to the sorted list rather than
being skipped. -/
theorem find_most_similar_spec {β : Type*} (sim : β → ℚ) (cands : List (Option β))
    (top_k : ℕ) :
    find_most_similar sim cands top_k =
      ((enum_scores sim cands).mergeSort (fun a b => decide (b.2 ≤ a.2))).take top_k ∧
    (find_most_similar sim cands top_k).length = min top_k cands.length ∧
    (find_most_similar sim cands top_k).Pairwise
      (fun p q => q.2 < p.2 ∨ (p.2 = q.2 ∧ p.1 < q.1)) ∧
    (∀ i (h : i < cands.length), cands[i] = none →
      (i, (0 : ℚ)) ∈ (enum_scores sim cands).mergeSort (fun a b => decide (b.2 ≤ a.2))) := by
  refine ⟨rfl, ?_, ?_, ?_⟩
  · rw [find_most_similar, List.length_take, List.length_mergeSort]
    simp [enum_scores]
  · exact (mergeSort_desc_stable _ (enum_scores_pairwise sim cands)).sublist
      (List.take_sublist _ _)
  · intro i h hnone
    rw [List.mem_mergeSort]
    have hlen : i < (enum_scores sim cands).length := by simpa [enum_scores] using h
    have hget : (enum_scores sim cands)[i] = (i, (0 : ℚ)) := by
      simp [enum_scores, hnone]
    exact hget ▸ List.getElem_mem hlen

/-- C8 witness: with candidates [some 1, none, some 2] under the identity
scoring, the `None` candidate contributes (1, 0) to the sorted list. -/
theorem find_most_similar_spec_witness :
    ((1 : ℕ), (0 : ℚ)) ∈ (enum_scores (fun q : ℚ => q) [some 1, none, some 2]).mergeSort
      (fun a b => decide (b.2 ≤ a.2)) :=
  (find_most_similar_spec (fun q : ℚ => q) [some 1, none, some 2] 2).2.2.2 1
    (by norm_num) rfl

/-! ## String lemmas for the fallback explanation -/

theorem str_append_ne_empty (a b : String) (h : a ≠ "") : a ++ b ≠ "" := by
  intro hc
  have hlen := congrArg String.length hc
  rw [String.length_append] at hlen
  have h0 : ("" : String).length = 0 := rfl
  rw [h0] at hlen
  have ha : a.data.length = 0 := by
    have ha2 : a.length = 0 := by omega
    exact ha2
  have hdata : a.data = [] := List.length_eq_zero.mp ha
  apply h
  cases a with
  | mk d =>
    have hd : d = [] := hdata
    subst hd
    rfl

theorem str_contains_suffix (p t : String) : str_contains (p ++ t) t := by
  refine ⟨p.data, [], ?_⟩
  simp [String.toList]

theorem str_contains_append_right {b a : String} (h : str_contains b a) (c : String) :
    str_contains (b ++ c) a := by
  obtain ⟨s, u, hsu⟩ := h
  refine ⟨s, u ++ c.data, ?_⟩
  have hbc : (b ++ c).toList = b.toList ++ c.data := by simp [String.toList]
  rw [hbc, ← hsu]
  simp [List.append_assoc]

/-- C9: with no LLM provider configured (`llm = none`),
`generate_match_explanation` returns the deterministic fallback, a non-empty
string that contains the job title (or its default "position") — for every
score tier — and never an error value. -/
theorem generate_match_explanation_no_llm (title company : Option String)
    (overall_score : Option ℚ) :
    generate_match_explanation none title company overall_score =
      fallback_match_explanation title company overall_score ∧
    generate_match_explanation none title company overall_score ≠ "" ∧
    str_contains (generate_match_explanation none title company overall_score)
      (title.getD "position") := by
  refine ⟨rfl, ?_, ?_⟩
  · show fallback_match_explanation title company overall_score ≠ ""
    simp only [fallback_match_explanation]
    split_ifs
    · exact str_append_ne_empty _ _ (str_append_ne_empty _ _ (str_append_ne_empty _ _
        (str_append_ne_empty _ _ (by decide))))
    · exact str_append_ne_empty _ _ (str_append_ne_empty _ _ (by decide))
    · exact str_append_ne_empty _ _ (str_append_ne_empty _ _ (by decide))
  · show str_contains (fallback_match_explanation title company overall_score)
      (title.getD "position")
    simp only [fallback_match_explanation]
    split_ifs
    · exact str_contains_append_right (str_contains_append_right
        (str_contains_append_right (str_contains_suffix _ _) _) _) _
    · exact str_contains_append_right (str_contains_suffix _ _) _
    · exact str_contains_append_right (str_contains_suffix _ _) _

end JobPilot
